import Mathlib

/-!
Verification of the agora-backend voting, reporting and moderation
subsystem.  The definitions below are a shallow embedding of the
route handlers in `src/routes/votes.js`, `src/routes/reports.js`,
`src/routes/moderation.js` and `src/middleware/moderation.js`,
over a relational-store state modelled as lists of rows.
-/

/-! ## Data model (schema.sql and 002_add_moderation.sql) -/

inductive ItemType
  | post
  | comment
deriving DecidableEq, Repr

inductive VoteType
  | up
  | down
deriving DecidableEq, Repr

inductive RStatus
  | pending
  | reviewed
  | dismissed
deriving DecidableEq, Repr

inductive Role
  | user
  | moderator
  | admin
deriving DecidableEq, Repr

/-- A row of the `posts` or `comments` table, restricted to the columns the
verified handlers touch: the primary key, the title/body text used for audit
details, and the denormalized `votes` counter. -/
structure ItemRow where
  itemType : ItemType
  id : Nat
  title : String
  votes : Int
deriving DecidableEq, Repr

/-- A row of the `votes` table: primary key `vid` (`id` in SQL), the voter,
the referenced item and the vote type. -/
structure VoteRow where
  vid : Nat
  userId : Nat
  itemId : Nat
  itemType : ItemType
  voteType : VoteType
deriving DecidableEq, Repr

/-- A row of the `reports` table. -/
structure ReportRow where
  rid : Nat
  reporterId : Nat
  itemId : Nat
  itemType : ItemType
  reason : Option String
  rStatus : RStatus
deriving DecidableEq, Repr

/-- A row of the `users` table (moderation-relevant columns). -/
structure UserRow where
  uid : Nat
  username : String
  role : Role
  isBanned : Bool
deriving DecidableEq, Repr

/-- A row of the `moderation_logs` table. -/
structure LogRow where
  moderatorId : Nat
  logAction : String
  targetType : Option String
  targetId : Option Nat
  details : Option String
deriving DecidableEq, Repr

/-- The relational store: one list of rows per table, plus the AUTOINCREMENT
counters for the two tables whose fresh primary keys matter to the logic. -/
structure DB where
  items : List ItemRow
  votes : List VoteRow
  reports : List ReportRow
  users : List UserRow
  logs : List LogRow
  nextVid : Nat
  nextRid : Nat
deriving DecidableEq, Repr

/-! ## JSON values and HTTP-style results -/

inductive JVal
  | jstr (s : String)
  | jint (n : Int)
  | jnull
deriving DecidableEq, Repr

/-- An error response: HTTP status code plus the `error` message body. -/
structure ErrResp where
  httpStatus : Nat
  errMsg : String
deriving DecidableEq, Repr

abbrev Resp := List (String × JVal)

abbrev HResult := Except ErrResp Resp

def lookupField : Resp → String → Option JVal
  | [], _ => none
  | (k, v) :: rest, key => if k = key then some v else lookupField rest key

def okLookup (e : HResult) (key : String) : Option JVal :=
  match e with
  | .ok resp => lookupField resp key
  | .error _ => none

def exceptOk (e : HResult) : Bool :=
  match e with
  | .ok _ => true
  | .error _ => false

def errStatus (e : HResult) : Option Nat :=
  match e with
  | .ok _ => none
  | .error r => some r.httpStatus

/-! ## Shared row lookups -/

def itTStr : ItemType → String
  | .post => "post"
  | .comment => "comment"

def vtStr : VoteType → String
  | .up => "up"
  | .down => "down"

def itemPred (t : ItemType) (iid : Nat) (r : ItemRow) : Bool :=
  decide (r.itemType = t) && decide (r.id = iid)

/-- `SELECT ... FROM posts/comments WHERE id = ?`. -/
def findItem (db : DB) (t : ItemType) (iid : Nat) : Option ItemRow :=
  db.items.find? (itemPred t iid)

def itemExists (db : DB) (t : ItemType) (iid : Nat) : Bool :=
  (findItem db t iid).isSome

def getItemVotes (db : DB) (t : ItemType) (iid : Nat) : Option Int :=
  (findItem db t iid).map (fun r => r.votes)

def votePred (uid iid : Nat) (t : ItemType) (r : VoteRow) : Bool :=
  decide (r.userId = uid) && decide (r.itemId = iid) && decide (r.itemType = t)

/-- `SELECT id, vote_type FROM votes WHERE user_id = ? AND item_id = ? AND item_type = ?`. -/
def findVote (db : DB) (uid iid : Nat) (t : ItemType) : Option VoteRow :=
  db.votes.find? (votePred uid iid t)

def reportPred (uid iid : Nat) (t : ItemType) (r : ReportRow) : Bool :=
  decide (r.reporterId = uid) && decide (r.itemId = iid) && decide (r.itemType = t)

/-- `SELECT id FROM reports WHERE reporter_id = ? AND reported_item_id = ? AND
reported_item_type = ?` — note: no filter on `status`. -/
def findReport (db : DB) (uid iid : Nat) (t : ItemType) : Option ReportRow :=
  db.reports.find? (reportPred uid iid t)

def findReportById (db : DB) (rid : Nat) : Option ReportRow :=
  db.reports.find? (fun r => decide (r.rid = rid))

def findUserByName (db : DB) (uname : String) : Option UserRow :=
  db.users.find? (fun u => decide (u.username = uname))

def findUserById (db : DB) (uid : Nat) : Option UserRow :=
  db.users.find? (fun u => decide (u.uid = uid))

/-- `logModerationAction` from src/middleware/moderation.js: append a row to
`moderation_logs` (best-effort; failures are swallowed, modelled as success). -/
def logModerationAction (db : DB) (moderatorId : Nat) (act : String)
    (targetType : Option String) (targetId : Option Nat) (details : Option String) : DB :=
  { db with logs := db.logs ++ [⟨moderatorId, act, targetType, targetId, details⟩] }

/-! ## Vote Ledger — POST /api/votes (src/routes/votes.js) -/

/-- Lines 41–61 of the handler: given the previously read `existingVote`,
perform the vote-table mutation and compute `voteDelta` and `action`. -/
def applyVoteMutation (db : DB) (uid : Nat) (t : ItemType) (iid : Nat) (vt : VoteType)
    (existingVote : Option VoteRow) : DB × Int × String :=
  match existingVote with
  | some ev =>
    if ev.voteType = vt then
      ({ db with votes := db.votes.filter (fun r => decide (r.vid ≠ ev.vid)) },
       (if vt = .up then -1 else 1), "removed")
    else
      ({ db with votes :=
           db.votes.map (fun r => if r.vid = ev.vid then { r with voteType := vt } else r) },
       (if vt = .up then 2 else -2), "updated")
  | none =>
    ({ db with
       votes := db.votes ++ [⟨db.nextVid, uid, iid, t, vt⟩],
       nextVid := db.nextVid + 1 },
     (if vt = .up then 1 else -1), "created")

/-- The vote lookup followed by the mutation (handler lines 33–61). -/
def voteStep (db : DB) (uid : Nat) (t : ItemType) (iid : Nat) (vt : VoteType) :
    DB × Int × String :=
  applyVoteMutation db uid t iid vt (findVote db uid iid t)

/-- `UPDATE posts/comments SET votes = votes + ? WHERE id = ?`. -/
def bumpItem (items : List ItemRow) (t : ItemType) (iid : Nat) (d : Int) : List ItemRow :=
  items.map (fun r => if itemPred t iid r then { r with votes := r.votes + d } else r)

/-- The whole POST /api/votes handler: item existence check, vote lookup and
mutation, counter update, then the two re-reads that build the response.
The first component is the store after the call (mutations are not wrapped in
a transaction, so the mutated store is returned even on the internal-error
path). -/
def castOrUpdateVote (db : DB) (uid : Nat) (t : ItemType) (iid : Nat) (vt : VoteType) :
    DB × HResult :=
  if itemExists db t iid then
    let step := voteStep db uid t iid vt
    let db2 : DB := { step.1 with items := bumpItem step.1.items t iid step.2.1 }
    (db2,
      match findItem db2 t iid with
      | none => .error ⟨500, "Internal server error"⟩
      | some updatedItem =>
          .ok [("message", JVal.jstr ("Vote " ++ step.2.2 ++ " successfully")),
               ("votes", JVal.jint updatedItem.votes),
               ("userVote",
                 match findVote db2 uid iid t with
                 | some cv => JVal.jstr (vtStr cv.voteType)
                 | none => JVal.jnull)])
  else
    (db, .error ⟨404, itTStr t ++ " not found"⟩)

/-- A vote request: the authenticated caller plus the request body. -/
structure VReq where
  uid : Nat
  itemType : ItemType
  itemId : Nat
  voteType : VoteType
deriving DecidableEq, Repr

/-- Run a sequence of vote requests, threading the store. -/
def runVotes (db : DB) (reqs : List VReq) : DB :=
  reqs.foldl (fun d q => (castOrUpdateVote d q.uid q.itemType q.itemId q.voteType).1) db

/-! ## The counter invariant -/

def voteSign (vt : VoteType) : Int :=
  if vt = .up then 1 else -1

def voteContrib (t : ItemType) (iid : Nat) (r : VoteRow) : Int :=
  if r.itemType = t ∧ r.itemId = iid then voteSign r.voteType else 0

/-- Signed sum over the vote rows of one item: +1 per up vote, −1 per down vote. -/
def signedSum (votes : List VoteRow) (t : ItemType) (iid : Nat) : Int :=
  (votes.map (voteContrib t iid)).sum

/-- The per-item counter invariant: every stored row for the item carries
exactly the signed sum of the item's current vote rows. -/
def invAt (db : DB) (t : ItemType) (iid : Nat) : Prop :=
  ∀ r ∈ db.items, r.itemType = t → r.id = iid → r.votes = signedSum db.votes t iid

/-- Store-enforced well-formedness of the votes table: primary keys are
distinct and below the AUTOINCREMENT counter. -/
def WfVotes (db : DB) : Prop :=
  (db.votes.map VoteRow.vid).Nodup ∧ ∀ r ∈ db.votes, r.vid < db.nextVid

instance (db : DB) (t : ItemType) (iid : Nat) : Decidable (invAt db t iid) := by
  unfold invAt; infer_instance

instance (db : DB) : Decidable (WfVotes db) := by
  unfold WfVotes; infer_instance

/-! ## Report Workflow — POST /api/reports (src/routes/reports.js) -/

/-- The JS guard `reason && reason.length > 500` (a missing reason skips the
length check; an empty string has length 0 and cannot trip it either). -/
def reasonTooLong (reason : Option String) : Bool :=
  match reason with
  | some r => decide (r.length > 500)
  | none => false

/-- `reason?.trim() || null`: store the trimmed reason, or NULL when the
reason is absent or trims to the empty string. -/
def storedReason (reason : Option String) : Option String :=
  match reason with
  | some r => if r.trim = "" then none else some r.trim
  | none => none

/-- POST /api/reports: validation, item existence check, duplicate check
(`status`-blind), then insert of a pending report. -/
def submitReport (db : DB) (uid : Nat) (t : ItemType) (iid : Nat)
    (reason : Option String) : DB × HResult :=
  if reasonTooLong reason then
    (db, .error ⟨400, "Reason too long (max 500 characters)"⟩)
  else if itemExists db t iid then
    match findReport db uid iid t with
    | some _ => (db, .error ⟨409, "You have already reported this content"⟩)
    | none =>
      ({ db with
         reports := db.reports ++ [⟨db.nextRid, uid, iid, t, storedReason reason, .pending⟩],
         nextRid := db.nextRid + 1 },
       .ok [("message", JVal.jstr ("Report submitted successfully"))])
  else
    (db, .error ⟨404, itTStr t ++ " not found"⟩)

/-! ## Moderation Action Executor (src/routes/moderation.js) -/

/-- POST /api/mod/posts/bulk-delete.  `none` models a request body whose
`postIds` is not an array; `Array.isArray(postIds) === false` and an empty
array both produce the 400 validation error. -/
def bulkDeletePosts (db : DB) (modId : Nat) (postIds : Option (List Nat)) :
    DB × HResult :=
  match postIds with
  | none => (db, .error ⟨400, "postIds array is required"⟩)
  | some ids =>
    if ids.isEmpty then
      (db, .error ⟨400, "postIds array is required"⟩)
    else
      let posts := db.items.filter (fun r => decide (r.itemType = .post) && ids.contains r.id)
      if posts.isEmpty then
        (db, .error ⟨404, "No posts found"⟩)
      else
        let db1 : DB :=
          { db with items :=
              db.items.filter (fun r => !(decide (r.itemType = .post) && ids.contains r.id)) }
        let db2 := logModerationAction db1 modId "bulk_delete_posts" (some ("post")) none
          (some ("Bulk deleted " ++ toString posts.length ++ " posts: "
                 ++ String.intercalate ", " (posts.map (fun p => p.title))))
        (db2, .ok [("message", JVal.jstr (toString posts.length ++ " posts deleted successfully")),
                   ("deletedCount", JVal.jint posts.length)])

/-- Flip `is_banned` for the rows matching a user id
(`UPDATE users SET is_banned = ? WHERE id = ?`). -/
def setBannedRows (users : List UserRow) (uid : Nat) (b : Bool) : List UserRow :=
  users.map (fun u => if u.uid = uid then { u with isBanned := b } else u)

/-- POST /api/mod/users/:username/ban. -/
def banUser (db : DB) (modId : Nat) (uname : String) : DB × HResult :=
  match findUserByName db uname with
  | none => (db, .error ⟨404, "User not found"⟩)
  | some u =>
    if u.isBanned then
      (db, .error ⟨400, "User is already banned"⟩)
    else
      let db1 : DB := { db with users := setBannedRows db.users u.uid true }
      let db2 := logModerationAction db1 modId "ban_user" (some ("user")) (some u.uid)
        (some ("Banned user: " ++ uname))
      (db2, .ok [("message", JVal.jstr ("User " ++ uname ++ " has been banned"))])

/-- POST /api/mod/users/:username/unban. -/
def unbanUser (db : DB) (modId : Nat) (uname : String) : DB × HResult :=
  match findUserByName db uname with
  | none => (db, .error ⟨404, "User not found"⟩)
  | some u =>
    if !u.isBanned then
      (db, .error ⟨400, "User is not banned"⟩)
    else
      let db1 : DB := { db with users := setBannedRows db.users u.uid false }
      let db2 := logModerationAction db1 modId "unban_user" (some ("user")) (some u.uid)
        (some ("Unbanned user: " ++ uname))
      (db2, .ok [("message", JVal.jstr ("User " ++ uname ++ " has been unbanned"))])

/-- POST /api/mod/reports/:id/dismiss: existence check, then an unconditional
`UPDATE reports SET status = 'dismissed' WHERE id = ?`. -/
def dismissReport (db : DB) (modId : Nat) (rid : Nat) : DB × HResult :=
  match findReportById db rid with
  | none => (db, .error ⟨404, "Report not found"⟩)
  | some report =>
    let db1 : DB :=
      { db with reports :=
          db.reports.map (fun r => if r.rid = rid then { r with rStatus := .dismissed } else r) }
    let db2 := logModerationAction db1 modId "dismiss_report" (some ("report")) (some rid)
      (some ("Dismissed report for " ++ itTStr report.itemType ++ " " ++ toString report.itemId))
    (db2, .ok [("message", JVal.jstr ("Report dismissed successfully"))])

/-- Status of the report with a given id, if present. -/
def reportStatus (db : DB) (rid : Nat) : Option RStatus :=
  (findReportById db rid).map (fun r => r.rStatus)

/-- Ban flag of the user with a given id, if present. -/
def userBanned (db : DB) (uid : Nat) : Option Bool :=
  (findUserById db uid).map (fun u => u.isBanned)

/-! ## Role & Ban Gate — requireModerator (src/middleware/moderation.js) -/

inductive GateResult
  | errAuthRequired
  | errUserNotFound
  | errForbidden
  | granted (u : UserRow)
deriving DecidableEq, Repr

/-- `requireModerator`: re-fetch the caller's row (`SELECT id, username, role,
is_banned FROM users WHERE id = ?`) and grant access exactly when the role is
moderator or admin.  The fetched `is_banned` column is never inspected. -/
def requireModerator (db : DB) (principal : Option Nat) : GateResult :=
  match principal with
  | none => .errAuthRequired
  | some uid =>
    match findUserById db uid with
    | none => .errUserNotFound
    | some user =>
      if user.role = .moderator ∨ user.role = .admin then .granted user
      else .errForbidden

def isGranted : GateResult → Bool
  | .granted _ => true
  | _ => false

/-- A store differing only in one user's `is_banned` flag. -/
def setBanned (db : DB) (uid : Nat) (b : Bool) : DB :=
  { db with users := setBannedRows db.users uid b }

/-! ## Interleaving model for concurrent vote calls

Each `await db.…` in the handler is one atomic store statement; between two
statements another request may run.  A thread is the handler's control state
together with the values it has already read. -/

inductive TPhase
  | pcStart
  | pcReadVote
  | pcMutate (ev : Option VoteRow)
  | pcBump (delta : Int)
  | pcDone
deriving DecidableEq, Repr

/-- One atomic statement of the handler for request `q`. -/
def threadStep (db : DB) (q : VReq) (ph : TPhase) : DB × TPhase :=
  match ph with
  | .pcStart =>
    if itemExists db q.itemType q.itemId then (db, .pcReadVote) else (db, .pcDone)
  | .pcReadVote => (db, .pcMutate (findVote db q.uid q.itemId q.itemType))
  | .pcMutate ev =>
    let m := applyVoteMutation db q.uid q.itemType q.itemId q.voteType ev
    (m.1, .pcBump m.2.1)
  | .pcBump d =>
    ({ db with items := bumpItem db.items q.itemType q.itemId d }, .pcDone)
  | .pcDone => (db, .pcDone)

structure TwoThreads where
  store : DB
  phA : TPhase
  phB : TPhase
deriving Repr

/-- Run the scheduler choice `pick` (`true` = thread A, `false` = thread B). -/
def schedStep (qA qB : VReq) (s : TwoThreads) (pick : Bool) : TwoThreads :=
  if pick then
    let r := threadStep s.store qA s.phA
    { s with store := r.1, phA := r.2 }
  else
    let r := threadStep s.store qB s.phB
    { s with store := r.1, phB := r.2 }

/-- Interleave two concurrent calls according to a schedule. -/
def runTwo (db : DB) (qA qB : VReq) (sched : List Bool) : TwoThreads :=
  sched.foldl (schedStep qA qB) ⟨db, .pcStart, .pcStart⟩

/-- The serial schedule: thread A runs to completion, then thread B. -/
def serialSched : List Bool :=
  [true, true, true, true, false, false, false, false]

/-- A lost-update schedule: both threads read the existing vote before either
mutates. -/
def racySched : List Bool :=
  [true, false, true, false, true, true, false, false]

/-! ## Concrete stores used by witnesses and counterexamples -/

/-- One post (id 1, counter 0), no votes yet. -/
def dbPost0 : DB :=
  ⟨[⟨.post, 1, "hello", 0⟩], [], [], [], [], 0, 0⟩

/-- One post (id 1, counter 1) on which user 1 already holds an up vote. -/
def dbPost1Up : DB :=
  ⟨[⟨.post, 1, "hello", 1⟩], [⟨0, 1, 1, .post, .up⟩], [], [], [], 1, 0⟩

/-- Store for the report claims: a post, a comment, one dismissed report by
user 1 on the post. -/
def dbReports : DB :=
  ⟨[⟨.post, 1, "hello", 0⟩, ⟨.comment, 5, "a comment", 0⟩],
   [], [⟨0, 1, 1, .post, none, .dismissed⟩], [], [], 0, 1⟩

/-- Store for the moderation claims: three posts, a banned and an unbanned
user, one pending and one dismissed report. -/
def dbMod : DB :=
  ⟨[⟨.post, 1, "p1", 0⟩, ⟨.post, 2, "p2", 0⟩, ⟨.comment, 3, "c3", 0⟩],
   [],
   [⟨0, 1, 1, .post, none, .pending⟩, ⟨1, 2, 1, .post, none, .dismissed⟩],
   [⟨1, "alice", .moderator, false⟩, ⟨2, "bob", .user, true⟩, ⟨3, "carol", .user, false⟩],
   [], 0, 2⟩

/-! ## Helper lemmas -/

/-- `find?` commutes with mapping a row transformer that does not change the
predicate (an UPDATE of non-key columns does not change which row a keyed
SELECT returns). -/
theorem find?_map_pres {α : Type} (f : α → α) (p : α → Bool)
    (hp : ∀ a, p (f a) = p a) :
    ∀ l : List α, (l.map f).find? p = (l.find? p).map f := by
  intro l
  induction l with
  | nil => rfl
  | cons a l ih =>
    by_cases h : p a = true
    · simp [List.find?_cons, hp, h]
    · have h' : p a = false := by simpa using h
      simp [List.find?_cons, hp, h', ih]
theorem setBannedRow_uid (uid : Nat) (b : Bool) (u : UserRow) :
    (if u.uid = uid then { u with isBanned := b } else u).uid = u.uid := by
  by_cases h : u.uid = uid <;> simp [h]

theorem setBannedRow_role (uid : Nat) (b : Bool) (u : UserRow) :
    (if u.uid = uid then { u with isBanned := b } else u).role = u.role := by
  by_cases h : u.uid = uid <;> simp [h]

theorem findUserById_setBanned (db : DB) (uid : Nat) (b : Bool) (uidq : Nat) :
    findUserById (setBanned db uid b) uidq =
      (findUserById db uidq).map (fun u => if u.uid = uid then { u with isBanned := b } else u) := by
  unfold findUserById setBanned setBannedRows
  exact find?_map_pres _ _ (fun u => by rw [setBannedRow_uid]) db.users

/-- Claim C10: the moderator gate's grant/deny outcome is independent of the
caller's `is_banned` flag, and any stored moderator or admin — banned or not —
is granted access. -/
theorem C10_gate_ignores_ban :
    (∀ (db : DB) (uid : Nat) (b : Bool) (p : Option Nat),
        isGranted (requireModerator (setBanned db uid b) p) =
        isGranted (requireModerator db p)) ∧
    (∀ (db : DB) (uid : Nat) (u : UserRow) (b : Bool),
        findUserById db uid = some u →
        (u.role = Role.moderator ∨ u.role = Role.admin) →
        isGranted (requireModerator db (some uid)) = true ∧
        isGranted (requireModerator (setBanned db uid b) (some uid)) = true) := by
  have hsame : ∀ (db : DB) (uid : Nat) (b : Bool) (p : Option Nat),
      isGranted (requireModerator (setBanned db uid b) p) =
      isGranted (requireModerator db p) := by
    intro db uid b p
    cases p with
    | none => rfl
    | some uidq =>
      simp only [requireModerator, findUserById_setBanned]
      cases hu : findUserById db uidq with
      | none => rfl
      | some u =>
        by_cases huid : u.uid = uid <;>
          by_cases hrole : u.role = Role.moderator ∨ u.role = Role.admin <;>
            simp [huid, hrole, isGranted]
  refine ⟨hsame, ?_⟩
  intro db uid u b hu hrole
  have hgr : isGranted (requireModerator db (some uid)) = true := by
    simp only [requireModerator, hu, if_pos hrole, isGranted]
  exact ⟨hgr, by rw [hsame]; exact hgr⟩

theorem C10_witness :
    isGranted (requireModerator dbMod (some 1)) = true ∧
    isGranted (requireModerator (setBanned dbMod 1 true) (some 1)) = true :=
  C10_gate_ignores_ban.2 dbMod 1 ⟨1, "alice", Role.moderator, false⟩ true (by decide) (by decide)
/-- Claim C5: submitReport rejects with 409 Conflict whenever the reporter
already has a report row for the item — whatever its status — creating no new
row; a missing item yields 404 NotFound. -/
theorem C5_report_dedup (db : DB) (uid : Nat) (t : ItemType) (iid : Nat)
    (reason : Option String) (hlen : reasonTooLong reason = false) :
    (itemExists db t iid = false →
       submitReport db uid t iid reason =
         (db, .error ⟨404, itTStr t ++ " not found"⟩)) ∧
    (itemExists db t iid = true →
       (∀ ex : ReportRow, findReport db uid iid t = some ex →
          submitReport db uid t iid reason =
            (db, .error ⟨409, "You have already reported this content"⟩)) ∧
       (findReport db uid iid t = none →
          (submitReport db uid t iid reason).1.reports =
            db.reports ++ [⟨db.nextRid, uid, iid, t, storedReason reason, RStatus.pending⟩] ∧
          exceptOk (submitReport db uid t iid reason).2 = true)) := by
  refine ⟨?_, fun hex => ⟨?_, ?_⟩⟩
  · intro hex
    simp [submitReport, hlen, hex]
  · intro ex hfind
    simp [submitReport, hlen, hex, hfind]
  · intro hfind
    simp [submitReport, hlen, hex, hfind, exceptOk]

theorem C5_witness :
    submitReport dbReports 1 ItemType.post 1 none =
      (dbReports, .error ⟨409, "You have already reported this content"⟩) :=
  ((C5_report_dedup dbReports 1 ItemType.post 1 none rfl).2 (by decide)).1
    ⟨0, 1, 1, ItemType.post, none, RStatus.dismissed⟩ (by decide)

/-- Claim C6: bulkDeletePosts validates the id list (400 on non-array/empty),
fails 404 exactly when no listed post exists, otherwise deletes exactly the
existing subset and reports its size as deletedCount. -/
theorem C6_bulk_delete (db : DB) (modId : Nat) :
    (bulkDeletePosts db modId none = (db, .error ⟨400, "postIds array is required"⟩)) ∧
    (bulkDeletePosts db modId (some []) = (db, .error ⟨400, "postIds array is required"⟩)) ∧
    (∀ ids : List Nat, ids.isEmpty = false →
      ((db.items.filter
          (fun r => decide (r.itemType = ItemType.post) && ids.contains r.id)).isEmpty = true →
         bulkDeletePosts db modId (some ids) = (db, .error ⟨404, "No posts found"⟩)) ∧
      ((db.items.filter
          (fun r => decide (r.itemType = ItemType.post) && ids.contains r.id)).isEmpty = false →
         (bulkDeletePosts db modId (some ids)).1.items =
           db.items.filter
             (fun r => !(decide (r.itemType = ItemType.post) && ids.contains r.id)) ∧
         okLookup (bulkDeletePosts db modId (some ids)).2 "deletedCount" =
           some (JVal.jint
             (db.items.filter
               (fun r => decide (r.itemType = ItemType.post) && ids.contains r.id)).length) ∧
         exceptOk (bulkDeletePosts db modId (some ids)).2 = true)) := by
  refine ⟨rfl, rfl, fun ids hne => ⟨?_, ?_⟩⟩
  · intro hempty
    simp only [bulkDeletePosts]
    rw [hne, hempty]
    simp
  · intro hfull
    simp only [bulkDeletePosts]
    rw [hne, hfull]
    simp [okLookup, lookupField, exceptOk, logModerationAction]

theorem C6_witness :
    (bulkDeletePosts dbMod 1 (some [1, 2, 99])).1.items = [⟨ItemType.comment, 3, "c3", 0⟩] ∧
    okLookup (bulkDeletePosts dbMod 1 (some [1, 2, 99])).2 "deletedCount" =
      some (JVal.jint 2) := by
  have h := ((C6_bulk_delete dbMod 1).2.2 [1, 2, 99] (by decide)).2 (by decide)
  exact ⟨by rw [h.1]; decide, by rw [h.2.1]; decide⟩
theorem find?_dismissRows (reports : List ReportRow) (rid : Nat) :
    (reports.map (fun r => if r.rid = rid then { r with rStatus := .dismissed } else r)).find?
        (fun r => decide (r.rid = rid)) =
      (reports.find? (fun r => decide (r.rid = rid))).map
        (fun r => if r.rid = rid then { r with rStatus := .dismissed } else r) :=
  find?_map_pres _ _ (fun r => by by_cases h : r.rid = rid <;> simp [h]) reports

/-- Claim C8: dismissReport 404s on a missing id and otherwise sets the status
to dismissed unconditionally from any source status — so re-dismissing
succeeds idempotently — without touching content rows or vote state. -/
theorem C8_dismiss (db : DB) (modId : Nat) (rid : Nat) :
    (findReportById db rid = none →
       dismissReport db modId rid = (db, .error ⟨404, "Report not found"⟩)) ∧
    (∀ rep : ReportRow, findReportById db rid = some rep →
       exceptOk (dismissReport db modId rid).2 = true ∧
       reportStatus (dismissReport db modId rid).1 rid = some RStatus.dismissed ∧
       exceptOk (dismissReport (dismissReport db modId rid).1 modId rid).2 = true ∧
       reportStatus (dismissReport (dismissReport db modId rid).1 modId rid).1 rid =
         some RStatus.dismissed ∧
       (dismissReport db modId rid).1.items = db.items ∧
       (dismissReport db modId rid).1.votes = db.votes) := by
  constructor
  · intro hnone
    simp [dismissReport, hnone]
  · intro rep hrep
    have hrid : rep.rid = rid := by simpa using List.find?_some hrep
    have hrep' : db.reports.find? (fun r => decide (r.rid = rid)) = some rep := hrep
    obtain ⟨d1, hd1⟩ : ∃ d1, (dismissReport db modId rid).1 = d1 := ⟨_, rfl⟩
    have hreports1 : d1.reports =
        db.reports.map (fun r => if r.rid = rid then { r with rStatus := RStatus.dismissed } else r) := by
      rw [← hd1]
      simp [dismissReport, hrep, logModerationAction]
    have hfind1 : findReportById d1 rid = some { rep with rStatus := RStatus.dismissed } := by
      unfold findReportById
      rw [hreports1, find?_dismissRows, hrep']
      simp [hrid]
    obtain ⟨d2, hd2⟩ : ∃ d2, (dismissReport d1 modId rid).1 = d2 := ⟨_, rfl⟩
    have hreports2 : d2.reports =
        d1.reports.map (fun r => if r.rid = rid then { r with rStatus := RStatus.dismissed } else r) := by
      rw [← hd2]
      simp [dismissReport, hfind1, logModerationAction]
    have hfind1' : d1.reports.find? (fun r => decide (r.rid = rid)) =
        some { rep with rStatus := RStatus.dismissed } := hfind1
    have hfind2 : findReportById d2 rid =
        some { rep with rStatus := RStatus.dismissed } := by
      unfold findReportById
      rw [hreports2, find?_dismissRows, hfind1']
      simp [hrid]
    refine ⟨?_, ?_, ?_, ?_, ?_, ?_⟩
    · simp [dismissReport, hrep, logModerationAction, exceptOk]
    · rw [hd1]
      simp [reportStatus, hfind1]
    · rw [hd1]
      simp [dismissReport, hfind1, exceptOk]
    · rw [hd1, hd2]
      simp [reportStatus, hfind2]
    · simp [dismissReport, hrep, logModerationAction]
    · simp [dismissReport, hrep, logModerationAction]

theorem C8_witness :
    exceptOk (dismissReport dbMod 1 1).2 = true ∧
    reportStatus (dismissReport dbMod 1 1).1 1 = some RStatus.dismissed :=
  have h := (C8_dismiss dbMod 1 1).2 ⟨1, 2, 1, ItemType.post, none, RStatus.dismissed⟩ (by decide)
  ⟨h.1, h.2.1⟩
theorem find?_setBannedRows (users : List UserRow) (uid : Nat) (b : Bool) :
    (setBannedRows users uid b).find? (fun u => decide (u.uid = uid)) =
      (users.find? (fun u => decide (u.uid = uid))).map
        (fun u => if u.uid = uid then { u with isBanned := b } else u) :=
  find?_map_pres _ _ (fun u => by rw [setBannedRow_uid]) users

/-- Claim C7 (counterexample): banning the already-banned user bob fails with
HTTP status 400 — the very status used for the Invalid (malformed request)
class, e.g. a non-array bulk-delete body — so the already-banned conflict is
not reported on a status distinct from Invalid. -/
theorem C7_cex :
    errStatus (banUser dbMod 1 "bob").2 = some 400 ∧
    errStatus (bulkDeletePosts dbMod 1 none).2 = some 400 ∧
    errStatus (banUser dbMod 1 "bob").2 = errStatus (bulkDeletePosts dbMod 1 none).2 := by
  decide

/-- Claim C7 (amended): banUser fails 404 NotFound when the user is absent and
fails when the user is already banned — but with HTTP status 400, the same
status as the Invalid class, not a distinct Conflict status; otherwise it sets
`is_banned` to true.  unbanUser mirrors this, failing with 400 when the user
is not banned. -/
theorem C7_ban_unban (db : DB) (modId : Nat) (uname : String) :
    (findUserByName db uname = none →
       banUser db modId uname = (db, .error ⟨404, "User not found"⟩) ∧
       unbanUser db modId uname = (db, .error ⟨404, "User not found"⟩)) ∧
    (∀ u : UserRow, findUserByName db uname = some u →
       (u.isBanned = true →
          banUser db modId uname = (db, .error ⟨400, "User is already banned"⟩) ∧
          errStatus (banUser db modId uname).2 = errStatus (bulkDeletePosts db modId none).2 ∧
          exceptOk (unbanUser db modId uname).2 = true ∧
          userBanned (unbanUser db modId uname).1 u.uid = some false) ∧
       (u.isBanned = false →
          unbanUser db modId uname = (db, .error ⟨400, "User is not banned"⟩) ∧
          errStatus (unbanUser db modId uname).2 = errStatus (bulkDeletePosts db modId none).2 ∧
          exceptOk (banUser db modId uname).2 = true ∧
          userBanned (banUser db modId uname).1 u.uid = some true)) := by
  constructor
  · intro hnone
    exact ⟨by simp [banUser, hnone], by simp [unbanUser, hnone]⟩
  · intro u hu
    have hmem : u ∈ db.users := List.mem_of_find?_eq_some hu
    have hsome : (db.users.find? (fun w => decide (w.uid = u.uid))).isSome := by
      rw [List.find?_isSome]
      exact ⟨u, hmem, by simp⟩
    obtain ⟨w, hw⟩ := Option.isSome_iff_exists.mp hsome
    have hwuid : w.uid = u.uid := by simpa using List.find?_some hw
    constructor
    · intro hb
      refine ⟨by simp [banUser, hu, hb], by simp [banUser, hu, hb, bulkDeletePosts, errStatus], ?_, ?_⟩
      · simp [unbanUser, hu, hb, logModerationAction, exceptOk]
      · have husers : (unbanUser db modId uname).1.users = setBannedRows db.users u.uid false := by
          simp [unbanUser, hu, hb, logModerationAction]
        unfold userBanned findUserById
        rw [husers, find?_setBannedRows, hw]
        simp [hwuid]
    · intro hb
      refine ⟨by simp [unbanUser, hu, hb], by simp [unbanUser, hu, hb, bulkDeletePosts, errStatus], ?_, ?_⟩
      · simp [banUser, hu, hb, logModerationAction, exceptOk]
      · have husers : (banUser db modId uname).1.users = setBannedRows db.users u.uid true := by
          simp [banUser, hu, hb, logModerationAction]
        unfold userBanned findUserById
        rw [husers, find?_setBannedRows, hw]
        simp [hwuid]

theorem C7_witness :
    banUser dbMod 1 "bob" = (dbMod, .error ⟨400, "User is already banned"⟩) ∧
    userBanned (banUser dbMod 1 "carol").1 3 = some true :=
  have hbob := ((C7_ban_unban dbMod 1 "bob").2 ⟨2, "bob", Role.user, true⟩ (by decide)).1 rfl
  have hcarol := ((C7_ban_unban dbMod 1 "carol").2 ⟨3, "carol", Role.user, false⟩ (by decide)).2 rfl
  ⟨hbob.1, hcarol.2.2.2⟩
theorem signedSum_append (l : List VoteRow) (r : VoteRow) (t : ItemType) (iid : Nat) :
    signedSum (l ++ [r]) t iid = signedSum l t iid + voteContrib t iid r := by
  simp [signedSum]

/-- Deleting a row by primary key from a key-unique table subtracts exactly
that row's contribution. -/
theorem signedSum_erase_vid (t : ItemType) (iid : Nat) (ev : VoteRow) :
    ∀ l : List VoteRow, ev ∈ l → (l.map VoteRow.vid).Nodup →
      signedSum (l.filter (fun r => decide (r.vid ≠ ev.vid))) t iid =
        signedSum l t iid - voteContrib t iid ev := by
  intro l
  induction l with
  | nil => intro h _; cases h
  | cons a l ih =>
    intro hmem hnd
    rw [List.map_cons, List.nodup_cons] at hnd
    obtain ⟨hna, hnd'⟩ := hnd
    rcases List.mem_cons.mp hmem with heq | hmem'
    · subst heq
      have hkeep : l.filter (fun r => decide (r.vid ≠ ev.vid)) = l := by
        apply List.filter_eq_self.mpr
        intro r hr
        simp only [decide_eq_true_eq]
        intro hcontra
        exact hna (hcontra ▸ List.mem_map_of_mem VoteRow.vid hr)
      rw [List.filter_cons_of_neg (by simp)]
      rw [hkeep]
      simp [signedSum]
    · have hne : a.vid ≠ ev.vid := by
        intro h
        exact hna (h ▸ List.mem_map_of_mem VoteRow.vid hmem')
      rw [List.filter_cons_of_pos (by simpa using hne)]
      have hih := ih hmem' hnd'
      simp only [signedSum, List.map_cons, List.sum_cons] at *
      rw [hih]
      ring

/-- Updating a row's non-key column by primary key swaps that row's
contribution for the updated one. -/
theorem signedSum_update_vid (t : ItemType) (iid : Nat) (ev : VoteRow) (vt : VoteType) :
    ∀ l : List VoteRow, ev ∈ l → (l.map VoteRow.vid).Nodup →
      signedSum (l.map (fun r => if r.vid = ev.vid then { r with voteType := vt } else r)) t iid =
        signedSum l t iid - voteContrib t iid ev
          + voteContrib t iid { ev with voteType := vt } := by
  intro l
  induction l with
  | nil => intro h _; cases h
  | cons a l ih =>
    intro hmem hnd
    rw [List.map_cons, List.nodup_cons] at hnd
    obtain ⟨hna, hnd'⟩ := hnd
    rcases List.mem_cons.mp hmem with heq | hmem'
    · subst heq
      have hkeep :
          l.map (fun r => if r.vid = ev.vid then { r with voteType := vt } else r) = l := by
        calc l.map (fun r => if r.vid = ev.vid then { r with voteType := vt } else r)
            = l.map id := by
              apply List.map_congr_left
              intro r hr
              have hne : r.vid ≠ ev.vid := by
                intro h
                exact hna (h ▸ List.mem_map_of_mem VoteRow.vid hr)
              simp [hne]
          _ = l := List.map_id l
      rw [List.map_cons, hkeep, if_pos rfl]
      simp only [signedSum, List.map_cons, List.sum_cons]
      ring
    · have hne : a.vid ≠ ev.vid := by
        intro h
        exact hna (h ▸ List.mem_map_of_mem VoteRow.vid hmem')
      rw [List.map_cons, if_neg hne]
      have hih := ih hmem' hnd'
      simp only [signedSum, List.map_cons, List.sum_cons] at *
      rw [hih]
      ring

theorem voteStep_items (db : DB) (uid : Nat) (t : ItemType) (iid : Nat) (vt : VoteType) :
    (voteStep db uid t iid vt).1.items = db.items := by
  unfold voteStep applyVoteMutation
  cases findVote db uid iid t with
  | none => rfl
  | some ev => by_cases h : ev.voteType = vt <;> simp [h]

theorem cast_fst (db : DB) (uid : Nat) (t : ItemType) (iid : Nat) (vt : VoteType)
    (hex : itemExists db t iid = true) :
    (castOrUpdateVote db uid t iid vt).1 =
      { (voteStep db uid t iid vt).1 with
        items := bumpItem (voteStep db uid t iid vt).1.items t iid
          (voteStep db uid t iid vt).2.1 } := by
  simp [castOrUpdateVote, hex]

theorem cast_fst_not (db : DB) (uid : Nat) (t : ItemType) (iid : Nat) (vt : VoteType)
    (hex : itemExists db t iid = false) :
    (castOrUpdateVote db uid t iid vt).1 = db := by
  simp [castOrUpdateVote, hex]

theorem votePred_facts {db : DB} {uid iid : Nat} {t : ItemType} {ev : VoteRow}
    (hF : findVote db uid iid t = some ev) :
    ev ∈ db.votes ∧ ev.userId = uid ∧ ev.itemId = iid ∧ ev.itemType = t := by
  refine ⟨List.mem_of_find?_eq_some hF, ?_⟩
  have := List.find?_some hF
  unfold votePred at this
  simp only [Bool.and_eq_true, decide_eq_true_eq] at this
  exact ⟨this.1.1, this.1.2, this.2⟩

/-- Effect of one vote mutation on an arbitrary item's signed sum: the
computed `voteDelta` lands on the voted item's sum and nowhere else. -/
theorem voteStep_sum (db : DB) (uid : Nat) (tq : ItemType) (iq : Nat) (vt : VoteType)
    (t : ItemType) (iid : Nat) (hwf : WfVotes db) :
    signedSum (voteStep db uid tq iq vt).1.votes t iid =
      signedSum db.votes t iid +
        (if tq = t ∧ iq = iid then (voteStep db uid tq iq vt).2.1 else 0) := by
  obtain ⟨hnd, _⟩ := hwf
  cases hF : findVote db uid iq tq with
  | none =>
    simp only [voteStep, applyVoteMutation, hF]
    rw [signedSum_append]
    congr 1
  | some ev =>
    obtain ⟨hmem, huid, hiid, ht⟩ := votePred_facts hF
    by_cases hsame : ev.voteType = vt
    · simp only [voteStep, applyVoteMutation, hF, if_pos hsame]
      rw [signedSum_erase_vid t iid ev db.votes hmem hnd]
      have hc : voteContrib t iid ev = (if tq = t ∧ iq = iid then voteSign vt else 0) := by
        simp only [voteContrib]
        rw [ht, hiid, hsame]
      rw [hc]
      by_cases h : tq = t ∧ iq = iid
      · cases vt <;> simp [h, voteSign] <;> ring
      · simp [h]
    · simp only [voteStep, applyVoteMutation, hF, if_neg hsame]
      rw [signedSum_update_vid t iid ev vt db.votes hmem hnd]
      have hopp : voteSign ev.voteType = - voteSign vt := by
        cases hv1 : vt <;> cases hv2 : ev.voteType <;> simp_all [voteSign]
      have hc : voteContrib t iid ev = (if tq = t ∧ iq = iid then - voteSign vt else 0) := by
        simp only [voteContrib]
        rw [ht, hiid, hopp]
      have hc2 : voteContrib t iid { ev with voteType := vt } =
          (if tq = t ∧ iq = iid then voteSign vt else 0) := by
        simp only [voteContrib]
        rw [ht, hiid]
      rw [hc, hc2]
      by_cases h : tq = t ∧ iq = iid
      · cases vt <;> simp [h, voteSign] <;> ring
      · simp [h]

/-- One castOrUpdateVote call preserves the counter invariant of every item. -/
theorem cast_pres_invAt (db : DB) (uid : Nat) (tq : ItemType) (iq : Nat) (vt : VoteType)
    (t : ItemType) (iid : Nat) (hwf : WfVotes db) (hinv : invAt db t iid) :
    invAt (castOrUpdateVote db uid tq iq vt).1 t iid := by
  by_cases hex : itemExists db tq iq
  case neg =>
    rw [cast_fst_not db uid tq iq vt (by simpa using hex)]
    exact hinv
  case pos =>
    rw [cast_fst db uid tq iq vt hex]
    intro rr hrr ht hid
    show rr.votes = signedSum (voteStep db uid tq iq vt).1.votes t iid
    rw [voteStep_sum db uid tq iq vt t iid ⟨hwf.1, hwf.2⟩]
    rw [voteStep_items] at hrr
    unfold bumpItem at hrr
    obtain ⟨r, hr, hfr⟩ := List.mem_map.mp hrr
    by_cases hp : itemPred tq iq r = true
    · rw [if_pos hp] at hfr
      have hty : r.itemType = t := by rw [← ht, ← hfr]
      have hid' : r.id = iid := by rw [← hid, ← hfr]
      have hmatch : tq = t ∧ iq = iid := by
        unfold itemPred at hp
        simp only [Bool.and_eq_true, decide_eq_true_eq] at hp
        exact ⟨hp.1 ▸ hty.symm ▸ rfl, hp.2 ▸ hid'.symm ▸ rfl⟩
      rw [if_pos hmatch, ← hfr]
      show r.votes + (voteStep db uid tq iq vt).2.1 = _
      rw [hinv r hr hty hid']
    · rw [if_neg (by simpa using hp)] at hfr
      subst hfr
      have hnmatch : ¬(tq = t ∧ iq = iid) := by
        intro hmatch
        apply hp
        unfold itemPred
        simp only [Bool.and_eq_true, decide_eq_true_eq]
        exact ⟨hmatch.1 ▸ ht, hmatch.2 ▸ hid⟩
      rw [if_neg hnmatch, add_zero]
      exact hinv r hr ht hid

/-- One castOrUpdateVote call preserves votes-table well-formedness. -/
theorem cast_pres_wf (db : DB) (uid : Nat) (tq : ItemType) (iq : Nat) (vt : VoteType)
    (hwf : WfVotes db) : WfVotes (castOrUpdateVote db uid tq iq vt).1 := by
  by_cases hex : itemExists db tq iq
  case neg =>
    rw [cast_fst_not db uid tq iq vt (by simpa using hex)]
    exact hwf
  case pos =>
    rw [cast_fst db uid tq iq vt hex]
    obtain ⟨hnd, hlt⟩ := hwf
    show WfVotes (voteStep db uid tq iq vt).1
    cases hF : findVote db uid iq tq with
    | none =>
      simp only [voteStep, applyVoteMutation, hF]
      constructor
      · rw [List.map_append, List.nodup_append]
        refine ⟨hnd, List.nodup_singleton _, ?_⟩
        intro x hx hx'
        simp only [List.map_cons, List.map_nil, List.mem_singleton] at hx'
        obtain ⟨r, hr, hrx⟩ := List.mem_map.mp hx
        subst hx'
        have hcontra := hlt r hr
        rw [hrx] at hcontra
        exact lt_irrefl _ hcontra
      · intro r hr
        rcases List.mem_append.mp hr with h | h
        · exact Nat.lt_succ_of_lt (hlt r h)
        · rw [List.mem_singleton] at h
          subst h
          exact Nat.lt_succ_self _
    | some ev =>
      by_cases hsame : ev.voteType = vt
      · simp only [voteStep, applyVoteMutation, hF, if_pos hsame]
        constructor
        · exact hnd.sublist ((List.filter_sublist _).map VoteRow.vid)
        · intro r hr
          exact hlt r (List.mem_of_mem_filter hr)
      · simp only [voteStep, applyVoteMutation, hF, if_neg hsame]
        constructor
        · have hmm : ((db.votes.map
              (fun r => if r.vid = ev.vid then { r with voteType := vt } else r)).map VoteRow.vid)
              = db.votes.map VoteRow.vid := by
            rw [List.map_map]
            apply List.map_congr_left
            intro r hr
            by_cases h : r.vid = ev.vid <;> simp [h, Function.comp]
          rw [hmm]
          exact hnd
        · intro r hr
          obtain ⟨w, hw, hwr⟩ := List.mem_map.mp hr
          have : r.vid = w.vid := by
            rw [← hwr]
            by_cases h : w.vid = ev.vid <;> simp [h]
          rw [this]
          exact hlt w hw

theorem runVotes_pres (db : DB) (reqs : List VReq) (t : ItemType) (iid : Nat)
    (hwf : WfVotes db) (hinv : invAt db t iid) :
    WfVotes (runVotes db reqs) ∧ invAt (runVotes db reqs) t iid := by
  induction reqs generalizing db with
  | nil => exact ⟨hwf, hinv⟩
  | cons q reqs ih =>
    have h1 := cast_pres_wf db q.uid q.itemType q.itemId q.voteType hwf
    have h2 := cast_pres_invAt db q.uid q.itemType q.itemId q.voteType t iid hwf hinv
    exact ih _ h1 h2

/-- Claim C1: if an item's votes counter equals the signed sum of its vote
rows, then after any sequence of castOrUpdateVote calls it does so again. -/
theorem C1_counter_invariant (db : DB) (reqs : List VReq) (t : ItemType) (iid : Nat)
    (hwf : WfVotes db) (hinv : invAt db t iid) :
    invAt (runVotes db reqs) t iid :=
  (runVotes_pres db reqs t iid hwf hinv).2

theorem C1_witness :
    WfVotes dbPost0 ∧ invAt dbPost0 ItemType.post 1 ∧
    invAt (runVotes dbPost0
      [⟨1, ItemType.post, 1, VoteType.up⟩, ⟨2, ItemType.post, 1, VoteType.down⟩,
       ⟨1, ItemType.post, 1, VoteType.down⟩, ⟨1, ItemType.post, 1, VoteType.down⟩])
      ItemType.post 1 :=
  ⟨by decide, by decide,
   C1_counter_invariant dbPost0
     [⟨1, ItemType.post, 1, VoteType.up⟩, ⟨2, ItemType.post, 1, VoteType.down⟩,
      ⟨1, ItemType.post, 1, VoteType.down⟩, ⟨1, ItemType.post, 1, VoteType.down⟩]
     ItemType.post 1 (by decide) (by decide)⟩
theorem itemPredBump_pres (t : ItemType) (iid : Nat) (tq : ItemType) (iq : Nat) (d : Int)
    (r : ItemRow) :
    itemPred t iid (if itemPred tq iq r then { r with votes := r.votes + d } else r) =
      itemPred t iid r := by
  by_cases h : itemPred tq iq r = true
  · rw [if_pos h]
    rfl
  · rw [if_neg h]

/-- The counter returned after the UPDATE is the old counter plus the
computed delta. -/
theorem getItemVotes_cast (db : DB) (uid : Nat) (t : ItemType) (iid : Nat) (vt : VoteType)
    (v : Int) (hv : getItemVotes db t iid = some v) :
    getItemVotes (castOrUpdateVote db uid t iid vt).1 t iid =
      some (v + (voteStep db uid t iid vt).2.1) := by
  obtain ⟨r0, hr0, hr0v⟩ : ∃ r0, findItem db t iid = some r0 ∧ r0.votes = v := by
    unfold getItemVotes at hv
    cases h : findItem db t iid with
    | none => rw [h] at hv; cases hv
    | some r0 =>
      rw [h] at hv
      exact ⟨r0, rfl, by simpa using hv⟩
  have hex : itemExists db t iid = true := by
    unfold itemExists
    rw [hr0]
    rfl
  have hp0 : itemPred t iid r0 = true := List.find?_some hr0
  rw [cast_fst db uid t iid vt hex]
  unfold getItemVotes findItem
  show (((bumpItem (voteStep db uid t iid vt).1.items t iid
      (voteStep db uid t iid vt).2.1).find? (itemPred t iid)).map (fun r => r.votes)) = _
  rw [voteStep_items]
  unfold bumpItem
  rw [find?_map_pres _ _ (itemPredBump_pres t iid t iid _)]
  have hr0' : db.items.find? (itemPred t iid) = some r0 := hr0
  rw [hr0']
  simp [hp0, hr0v]

/-- Claim C2: the handler follows the three-case algorithm — insert with
delta ±1 and action created when no vote exists; delete with delta −1/+1 and
action removed on a same-type vote; type update with delta ±2 and action
updated on an opposite-type vote — and applies the delta to the item's
counter. -/
theorem C2_vote_algorithm (db : DB) (uid : Nat) (t : ItemType) (iid : Nat) (vt : VoteType)
    (hex : itemExists db t iid = true) (v : Int) (hv : getItemVotes db t iid = some v) :
    (findVote db uid iid t = none →
       (voteStep db uid t iid vt).1.votes =
         db.votes ++ [⟨db.nextVid, uid, iid, t, vt⟩] ∧
       (voteStep db uid t iid vt).2.1 = (if vt = VoteType.up then 1 else -1) ∧
       (voteStep db uid t iid vt).2.2 = "created" ∧
       getItemVotes (castOrUpdateVote db uid t iid vt).1 t iid =
         some (v + (if vt = VoteType.up then 1 else -1))) ∧
    (∀ ev : VoteRow, findVote db uid iid t = some ev → ev.voteType = vt →
       (voteStep db uid t iid vt).1.votes =
         db.votes.filter (fun r => decide (r.vid ≠ ev.vid)) ∧
       (voteStep db uid t iid vt).2.1 = (if vt = VoteType.up then -1 else 1) ∧
       (voteStep db uid t iid vt).2.2 = "removed" ∧
       getItemVotes (castOrUpdateVote db uid t iid vt).1 t iid =
         some (v + (if vt = VoteType.up then -1 else 1))) ∧
    (∀ ev : VoteRow, findVote db uid iid t = some ev → ev.voteType ≠ vt →
       (voteStep db uid t iid vt).1.votes =
         db.votes.map (fun r => if r.vid = ev.vid then { r with voteType := vt } else r) ∧
       (voteStep db uid t iid vt).2.1 = (if vt = VoteType.up then 2 else -2) ∧
       (voteStep db uid t iid vt).2.2 = "updated" ∧
       getItemVotes (castOrUpdateVote db uid t iid vt).1 t iid =
         some (v + (if vt = VoteType.up then 2 else -2))) := by
  refine ⟨?_, ?_, ?_⟩
  · intro hF
    have hd : (voteStep db uid t iid vt).2.1 = (if vt = VoteType.up then 1 else -1) := by
      simp [voteStep, applyVoteMutation, hF]
    refine ⟨by simp [voteStep, applyVoteMutation, hF], hd,
      by simp [voteStep, applyVoteMutation, hF], ?_⟩
    rw [getItemVotes_cast db uid t iid vt v hv, hd]
  · intro ev hF hsame
    have hd : (voteStep db uid t iid vt).2.1 = (if vt = VoteType.up then -1 else 1) := by
      simp [voteStep, applyVoteMutation, hF, hsame]
    refine ⟨by simp [voteStep, applyVoteMutation, hF, hsame], hd,
      by simp [voteStep, applyVoteMutation, hF, hsame], ?_⟩
    rw [getItemVotes_cast db uid t iid vt v hv, hd]
  · intro ev hF hdiff
    have hd : (voteStep db uid t iid vt).2.1 = (if vt = VoteType.up then 2 else -2) := by
      simp [voteStep, applyVoteMutation, hF, hdiff]
    refine ⟨by simp [voteStep, applyVoteMutation, hF, hdiff], hd,
      by simp [voteStep, applyVoteMutation, hF, hdiff], ?_⟩
    rw [getItemVotes_cast db uid t iid vt v hv, hd]

theorem C2_witness :
    itemExists dbPost1Up ItemType.post 1 = true ∧
    (voteStep dbPost1Up 1 ItemType.post 1 VoteType.up).2.2 = "removed" ∧
    getItemVotes (castOrUpdateVote dbPost1Up 1 ItemType.post 1 VoteType.up).1
      ItemType.post 1 = some 0 :=
  have h := ((C2_vote_algorithm dbPost1Up 1 ItemType.post 1 VoteType.up rfl 1 rfl).2.1)
    ⟨0, 1, 1, ItemType.post, VoteType.up⟩ rfl rfl
  ⟨rfl, h.2.2.1, h.2.2.2⟩
theorem getItemVotes_some {db : DB} {t : ItemType} {iid : Nat} {v : Int}
    (hv : getItemVotes db t iid = some v) :
    ∃ r0, findItem db t iid = some r0 ∧ r0.votes = v := by
  unfold getItemVotes at hv
  cases h : findItem db t iid with
  | none => rw [h] at hv; cases hv
  | some r0 =>
    rw [h] at hv
    exact ⟨r0, rfl, by simpa using hv⟩

theorem itemExists_of_getItemVotes {db : DB} {t : ItemType} {iid : Nat} {v : Int}
    (hv : getItemVotes db t iid = some v) : itemExists db t iid = true := by
  obtain ⟨r0, hr0, _⟩ := getItemVotes_some hv
  unfold itemExists
  rw [hr0]
  rfl

/-- The JSON body of a successful vote call, in terms of the re-read row. -/
theorem cast_snd (db : DB) (uid : Nat) (t : ItemType) (iid : Nat) (vt : VoteType)
    (hex : itemExists db t iid = true) (u0 : ItemRow)
    (hu0 : findItem (castOrUpdateVote db uid t iid vt).1 t iid = some u0) :
    (castOrUpdateVote db uid t iid vt).2 =
      .ok [("message", JVal.jstr ("Vote " ++ (voteStep db uid t iid vt).2.2 ++ " successfully")),
           ("votes", JVal.jint u0.votes),
           ("userVote",
             match findVote (castOrUpdateVote db uid t iid vt).1 uid iid t with
             | some cv => JVal.jstr (vtStr cv.voteType)
             | none => JVal.jnull)] := by
  rw [cast_fst db uid t iid vt hex] at hu0
  simp only [castOrUpdateVote, hex, if_true]
  rw [hu0]

/-- Claim C3 (counterexample): a successful vote response carries no `action`
field — looking it up yields none even though the call succeeded and `votes`
is present. -/
theorem C3_cex :
    exceptOk (castOrUpdateVote dbPost0 1 ItemType.post 1 VoteType.up).2 = true ∧
    okLookup (castOrUpdateVote dbPost0 1 ItemType.post 1 VoteType.up).2 "votes" =
      some (JVal.jint 1) ∧
    okLookup (castOrUpdateVote dbPost0 1 ItemType.post 1 VoteType.up).2 "action" = none := by
  decide

/-- Claim C3 (amended): a successful response carries `votes` — the counter
reflecting the just-applied delta — and `userVote` — the caller's resulting
vote type or null — while the action (one of created/removed/updated) is
embedded in the `message` field, with no separate `action` field. -/
theorem C3_response_fields (db : DB) (uid : Nat) (t : ItemType) (iid : Nat) (vt : VoteType)
    (v : Int) (hv : getItemVotes db t iid = some v) :
    okLookup (castOrUpdateVote db uid t iid vt).2 "votes" =
      some (JVal.jint (v + (voteStep db uid t iid vt).2.1)) ∧
    okLookup (castOrUpdateVote db uid t iid vt).2 "userVote" =
      some (match findVote (castOrUpdateVote db uid t iid vt).1 uid iid t with
            | some cv => JVal.jstr (vtStr cv.voteType)
            | none => JVal.jnull) ∧
    okLookup (castOrUpdateVote db uid t iid vt).2 "message" =
      some (JVal.jstr ("Vote " ++ (voteStep db uid t iid vt).2.2 ++ " successfully")) ∧
    ((voteStep db uid t iid vt).2.2 = "created" ∨ (voteStep db uid t iid vt).2.2 = "removed" ∨
      (voteStep db uid t iid vt).2.2 = "updated") ∧
    okLookup (castOrUpdateVote db uid t iid vt).2 "action" = none := by
  have hex : itemExists db t iid = true := itemExists_of_getItemVotes hv
  have hg := getItemVotes_cast db uid t iid vt v hv
  obtain ⟨u0, hu0, hu0v⟩ := getItemVotes_some hg
  have hsnd := cast_snd db uid t iid vt hex u0 hu0
  refine ⟨?_, ?_, ?_, ?_, ?_⟩
  · rw [hsnd]
    simp [okLookup, lookupField, hu0v]
  · rw [hsnd]
    simp [okLookup, lookupField]
  · rw [hsnd]
    simp [okLookup, lookupField]
  · cases hF : findVote db uid iid t with
    | none =>
      left
      simp [voteStep, applyVoteMutation, hF]
    | some ev =>
      by_cases h : ev.voteType = vt
      · right; left
        simp [voteStep, applyVoteMutation, hF, h]
      · right; right
        simp [voteStep, applyVoteMutation, hF, h]
  · rw [hsnd]
    simp [okLookup, lookupField]

theorem C3_witness :
    okLookup (castOrUpdateVote dbPost0 1 ItemType.post 1 VoteType.up).2 "votes" =
      some (JVal.jint (0 + (voteStep dbPost0 1 ItemType.post 1 VoteType.up).2.1)) :=
  (C3_response_fields dbPost0 1 ItemType.post 1 VoteType.up 0 rfl).1
theorem find?_append_of_none {α : Type} {p : α → Bool} {l₁ : List α} (l₂ : List α)
    (h : l₁.find? p = none) : (l₁ ++ l₂).find? p = l₂.find? p := by
  induction l₁ with
  | nil => rfl
  | cons a l ih =>
    rw [List.find?_cons] at h
    cases hp : p a with
    | true => rw [hp] at h; cases h
    | false =>
      rw [hp] at h
      rw [List.cons_append, List.find?_cons, hp]
      exact ih h

/-- Claim C4 (counterexample): for a user who already holds an up vote on the
item, casting up twice does not return to the pre-call state — the second
call re-creates the vote row and reports userVote "up", not null. -/
theorem C4_cex :
    ¬ (findVote (castOrUpdateVote (castOrUpdateVote dbPost1Up 1 ItemType.post 1 VoteType.up).1
          1 ItemType.post 1 VoteType.up).1 1 1 ItemType.post = none ∧
       okLookup (castOrUpdateVote (castOrUpdateVote dbPost1Up 1 ItemType.post 1 VoteType.up).1
          1 ItemType.post 1 VoteType.up).2 "userVote" = some JVal.jnull) := by
  decide

/-- Claim C4 (amended): provided the user has no existing vote on the item,
casting the same vote type twice in succession returns to the pre-vote state:
the counter's net delta over the two calls is zero, the user's vote row is
absent, and the second call reports userVote null. -/
theorem C4_double_cast (db : DB) (uid : Nat) (t : ItemType) (iid : Nat) (vt : VoteType)
    (v : Int) (hv : getItemVotes db t iid = some v)
    (hnone : findVote db uid iid t = none) :
    getItemVotes (castOrUpdateVote (castOrUpdateVote db uid t iid vt).1 uid t iid vt).1
      t iid = some v ∧
    findVote (castOrUpdateVote (castOrUpdateVote db uid t iid vt).1 uid t iid vt).1
      uid iid t = none ∧
    okLookup (castOrUpdateVote (castOrUpdateVote db uid t iid vt).1 uid t iid vt).2
      "userVote" = some JVal.jnull := by
  have hex : itemExists db t iid = true := itemExists_of_getItemVotes hv
  have hd1 : (voteStep db uid t iid vt).2.1 = (if vt = VoteType.up then 1 else -1) := by
    simp [voteStep, applyVoteMutation, hnone]
  -- state after the first call
  have hv1 : getItemVotes (castOrUpdateVote db uid t iid vt).1 t iid =
      some (v + (if vt = VoteType.up then 1 else -1)) := by
    rw [getItemVotes_cast db uid t iid vt v hv, hd1]
  have hvotes1 : (castOrUpdateVote db uid t iid vt).1.votes =
      db.votes ++ [⟨db.nextVid, uid, iid, t, vt⟩] := by
    rw [cast_fst db uid t iid vt hex]
    simp [voteStep, applyVoteMutation, hnone]
  have hF1 : findVote (castOrUpdateVote db uid t iid vt).1 uid iid t =
      some ⟨db.nextVid, uid, iid, t, vt⟩ := by
    unfold findVote
    rw [hvotes1, find?_append_of_none _ hnone]
    rw [List.find?_cons]
    have : votePred uid iid t ⟨db.nextVid, uid, iid, t, vt⟩ = true := by
      simp [votePred]
    rw [this]
  have hd2 : (voteStep (castOrUpdateVote db uid t iid vt).1 uid t iid vt).2.1 =
      (if vt = VoteType.up then -1 else 1) := by
    simp [voteStep, applyVoteMutation, hF1]
  have hvotes2 : (castOrUpdateVote (castOrUpdateVote db uid t iid vt).1 uid t iid vt).1.votes =
      (castOrUpdateVote db uid t iid vt).1.votes.filter
        (fun r => decide (r.vid ≠ db.nextVid)) := by
    rw [cast_fst _ uid t iid vt (itemExists_of_getItemVotes hv1)]
    show (voteStep (castOrUpdateVote db uid t iid vt).1 uid t iid vt).1.votes = _
    simp [voteStep, applyVoteMutation, hF1]
  have hF2 : findVote (castOrUpdateVote (castOrUpdateVote db uid t iid vt).1 uid t iid vt).1
      uid iid t = none := by
    unfold findVote
    rw [hvotes2, hvotes1, List.find?_eq_none]
    intro r hr
    rw [List.mem_filter] at hr
    obtain ⟨hrmem, hrvid⟩ := hr
    rcases List.mem_append.mp hrmem with h | h
    · have := List.find?_eq_none.mp hnone r h
      simpa using this
    · rw [List.mem_singleton] at h
      subst h
      simp at hrvid
  refine ⟨?_, hF2, ?_⟩
  · rw [getItemVotes_cast _ uid t iid vt _ hv1, hd2]
    congr 1
    cases vt <;> simp
  · obtain ⟨u0, hu0, _⟩ := getItemVotes_some
      (getItemVotes_cast _ uid t iid vt _ hv1)
    rw [cast_snd _ uid t iid vt (itemExists_of_getItemVotes hv1) u0 hu0, hF2]
    simp [okLookup, lookupField]

theorem C4_witness :
    getItemVotes (castOrUpdateVote (castOrUpdateVote dbPost0 1 ItemType.post 1 VoteType.up).1
      1 ItemType.post 1 VoteType.up).1 ItemType.post 1 = some 0 ∧
    findVote (castOrUpdateVote (castOrUpdateVote dbPost0 1 ItemType.post 1 VoteType.up).1
      1 ItemType.post 1 VoteType.up).1 1 1 ItemType.post = none ∧
    okLookup (castOrUpdateVote (castOrUpdateVote dbPost0 1 ItemType.post 1 VoteType.up).1
      1 ItemType.post 1 VoteType.up).2 "userVote" = some JVal.jnull :=
  C4_double_cast dbPost0 1 ItemType.post 1 VoteType.up 0 rfl rfl
/-- The toggle request raced in the lost-update scenario. -/
def reqUp1 : VReq := ⟨1, ItemType.post, 1, VoteType.up⟩

/-- Four consecutive scheduler picks of thread A run its whole handler. -/
theorem runFour_true (db : DB) (qA qB : VReq) (phB : TPhase) :
    List.foldl (schedStep qA qB) ⟨db, TPhase.pcStart, phB⟩ [true, true, true, true] =
      ⟨(castOrUpdateVote db qA.uid qA.itemType qA.itemId qA.voteType).1,
        TPhase.pcDone, phB⟩ := by
  cases hex : itemExists db qA.itemType qA.itemId with
  | true =>
    rw [cast_fst db qA.uid qA.itemType qA.itemId qA.voteType hex]
    simp only [List.foldl_cons, List.foldl_nil, schedStep, threadStep, hex, if_true, voteStep]
  | false =>
    rw [cast_fst_not db qA.uid qA.itemType qA.itemId qA.voteType hex]
    simp only [List.foldl_cons, List.foldl_nil, schedStep, threadStep, hex,
      Bool.false_eq_true, if_false, if_true]

/-- Four consecutive scheduler picks of thread B run its whole handler. -/
theorem runFour_false (db : DB) (qA qB : VReq) (phA : TPhase) :
    List.foldl (schedStep qA qB) ⟨db, phA, TPhase.pcStart⟩ [false, false, false, false] =
      ⟨(castOrUpdateVote db qB.uid qB.itemType qB.itemId qB.voteType).1,
        phA, TPhase.pcDone⟩ := by
  cases hex : itemExists db qB.itemType qB.itemId with
  | true =>
    rw [cast_fst db qB.uid qB.itemType qB.itemId qB.voteType hex]
    simp only [List.foldl_cons, List.foldl_nil, schedStep, threadStep, hex, if_true,
      Bool.false_eq_true, if_false, voteStep]
  | false =>
    rw [cast_fst_not db qB.uid qB.itemType qB.itemId qB.voteType hex]
    simp only [List.foldl_cons, List.foldl_nil, schedStep, threadStep, hex,
      Bool.false_eq_true, if_false, if_true]

/-- Under the serial schedule the interleaving model coincides with two
sequential handler calls. -/
theorem runTwo_serial (db : DB) (qA qB : VReq) :
    (runTwo db qA qB serialSched).store =
      (castOrUpdateVote (castOrUpdateVote db qA.uid qA.itemType qA.itemId qA.voteType).1
        qB.uid qB.itemType qB.itemId qB.voteType).1 := by
  show (List.foldl (schedStep qA qB) ⟨db, TPhase.pcStart, TPhase.pcStart⟩
      ([true, true, true, true] ++ [false, false, false, false])).store = _
  rw [List.foldl_append, runFour_true, runFour_false]

/-- Claim C9 (counterexample): the handler is not atomic — under the schedule
where both toggles read the existing vote before either mutates, both calls
run to completion but the final counter (−1) no longer equals the signed vote
sum (0): an update is lost. -/
theorem C9_cex :
    WfVotes dbPost1Up ∧ invAt dbPost1Up ItemType.post 1 ∧
    (runTwo dbPost1Up reqUp1 reqUp1 racySched).phA = TPhase.pcDone ∧
    (runTwo dbPost1Up reqUp1 reqUp1 racySched).phB = TPhase.pcDone ∧
    ¬ invAt (runTwo dbPost1Up reqUp1 reqUp1 racySched).store ItemType.post 1 := by
  decide

/-- Claim C9 (amended): each individual store statement is atomic and the
counter UPDATE applies a relative delta, so serialized (non-interleaved) calls
preserve the counter invariant; but a call is not one atomic unit — there is
an interleaving of two concurrent calls for the same item that loses an
update, leaving the counter different from the signed vote sum. -/
theorem C9_serial_ok_interleaved_lost (db : DB) (qA qB : VReq) (t : ItemType) (iid : Nat)
    (hwf : WfVotes db) (hinv : invAt db t iid) :
    invAt (runTwo db qA qB serialSched).store t iid ∧
    (WfVotes dbPost1Up ∧ invAt dbPost1Up ItemType.post 1 ∧
      ¬ invAt (runTwo dbPost1Up reqUp1 reqUp1 racySched).store ItemType.post 1) := by
  refine ⟨?_, by decide, by decide, by decide⟩
  rw [runTwo_serial]
  exact cast_pres_invAt _ _ _ _ _ t iid
    (cast_pres_wf _ _ _ _ _ hwf)
    (cast_pres_invAt _ _ _ _ _ t iid hwf hinv)

theorem C9_witness :
    invAt (runTwo dbPost0 reqUp1 reqUp1 serialSched).store ItemType.post 1 :=
  (C9_serial_ok_interleaved_lost dbPost0 reqUp1 reqUp1 ItemType.post 1
    (by decide) (by decide)).1
